import Mathlib

/-!
Shallow embedding of the EF blockchain-test harness
(`testing/ef-tests/src/cases/blockchain_test.rs`): the data model of a
blockchain test fixture, the per-case runner `run_case`, the suite runner
`BlockchainTestCase.run`, and the `should_skip` path filter.

External collaborators whose bodies live outside the embedded file
(RLP decoding, sender recovery, the execution stage, the state-root
computation) are supplied through an `Env` record of functions, so the
theorems quantify over every possible behaviour of those collaborators.
Operations of the in-memory test store are modelled as total functions on
an explicit `Store` value.

Rust panics (from `.unwrap()`) are distinguished from typed errors by the
three-valued `Outcome` type: `.ok`, `.err` (a typed `Error` returned to the
caller) and `.panic` (a process abort).
-/

/-- Fork identifiers appearing in fixtures. The seven variants excluded by
`BlockchainTestCase::run` are present, together with representative
non-excluded forks. -/
inductive ForkSpec where
  | Frontier
  | Homestead
  | Byzantium
  | ByzantiumToConstantinopleAt5
  | Constantinople
  | ConstantinopleFix
  | Berlin
  | London
  | Paris
  | Shanghai
  | Cancun
  | MergeEOF
  | MergeMeterInitCode
  | MergePush0
  | Unknown
  deriving DecidableEq, Repr

/-- Block header: height, state-root commitment and content hash (the fields
the harness reads). -/
structure Header where
  number : Nat
  stateRoot : Nat
  hash : Nat
  deriving DecidableEq, Repr

/-- A decoded (sealed) block: header plus ordered transaction list. -/
structure DecodedBlock where
  header : Header
  transactions : List Nat
  deriving DecidableEq, Repr

/-- A block whose transaction senders have been recovered. -/
structure RecoveredBlock where
  block : DecodedBlock
  senders : List Nat
  deriving DecidableEq, Repr

/-- Account state: balance, nonce, code hash and a storage-slot mapping. -/
structure Account where
  balance : Nat
  nonce : Nat
  code : Nat
  storage : List (Nat × Nat)
  deriving DecidableEq, Repr

/-- One block entry of a fixture: raw encoded bytes and an optional
expected-exception marker. -/
structure FixtureBlock where
  rlp : List Nat
  expect_exception : Option String
  deriving DecidableEq, Repr

/-- A single blockchain test fixture: network fork, genesis header,
pre-state, block list, and either an expected post-state or an expected
state-commitment hash. -/
structure BlockchainTest where
  network : ForkSpec
  genesis_block_header : Header
  pre : List (Nat × Account)
  blocks : List FixtureBlock
  post_state : Option (List (Nat × Account))
  post_state_hash : Option Nat
  deriving DecidableEq, Repr

/-- Content of one test store instance (the provider created fresh for each
case): the plain account state, the inserted historical blocks, the
receipts-segment genesis marker, and the hashed-state entries written by
`insert_hashes`. -/
structure Store where
  accounts : List (Nat × Account)
  blocks : List DecodedBlock
  receiptsGenesis : Bool
  hashes : List (Nat × Nat × Nat)
  deriving DecidableEq, Repr

/-- Typed errors the harness returns (the `Error` enum of the ef-tests
crate, restricted to the variants reachable from `run_case` and `run`). -/
inductive Error where
  | Skipped
  | RlpDecodeError (msg : String)
  | MissingAccount (address : Nat)
  | StateMismatch (address : Nat) (field : String) (expected actual : Nat)
  | StateRootMismatch (expected actual : Nat)
  | MissingPostState
  deriving DecidableEq, Repr

/-- Result of running Rust code that may return a typed error or panic. -/
inductive Outcome (α : Type) where
  | ok (a : α)
  | err (e : Error)
  | panic (msg : String)
  deriving DecidableEq, Repr

/-- External collaborators of the harness, as pure functions: RLP block
decoding, transaction-sender recovery, the execution stage and the
state-root computation. -/
structure Env where
  decode : List Nat → Except String DecodedBlock
  try_recover : DecodedBlock → Option RecoveredBlock
  exec : ForkSpec → Store → Option Nat → Except String Store
  stateRoot : Store → Nat

/-- The store a freshly created test provider factory starts from. -/
def emptyStore : Store :=
  { accounts := [], blocks := [], receiptsGenesis := false, hashes := [] }

/-- Append a recovered block to the historical-block table. -/
def insert_historical_block (s : Store) (b : RecoveredBlock) : Store :=
  { s with blocks := s.blocks ++ [b.block] }

/-- Write the fixture pre-state into the store. -/
def write_to_db (s : Store) (pre : List (Nat × Account)) : Store :=
  { s with accounts := pre }

/-- Initialize the receipts static file with genesis. -/
def initReceipts (s : Store) : Store :=
  { s with receiptsGenesis := true }

/-- The genesis block assembled by `run_case`: fixture genesis header with a
default (empty) body. -/
def genesisBlock (c : BlockchainTest) : DecodedBlock :=
  { header := c.genesis_block_header, transactions := [] }

/-- Default sealed block, used by the hash-mode branch when the fixture has
no blocks. -/
def defaultBlock : DecodedBlock :=
  { header := { number := 0, stateRoot := 0, hash := 0 }, transactions := [] }

/-- Panic message of the sender-recovery unwrap in the block-insertion
loop. -/
def recoverPanicMsg : String := "called Option::unwrap on a None value: try_recover"

/-- Panic message of the sender-recovery unwrap on the genesis block. -/
def genesisPanicMsg : String := "called Option::unwrap on a None value: genesis try_recover"

/-- The decode-and-insert loop of `run_case` (its `try_fold` over
`case.blocks`): each block is RLP-decoded (a failure is a typed error),
sender-recovered (a failure is an unwrap panic) and inserted; the
accumulator holds the last decoded block. -/
def insertBlocks (env : Env) (s : Store) (last : Option DecodedBlock) :
    List FixtureBlock → Outcome (Store × Option DecodedBlock)
  | [] => .ok (s, last)
  | b :: bs =>
    match env.decode b.rlp with
    | .error e => .err (.RlpDecodeError e)
    | .ok d =>
      match env.try_recover d with
      | none => .panic recoverPanicMsg
      | some r => insertBlocks env (insert_historical_block s r) (some d) bs

/-- Store holding genesis block, pre-state and the receipts-segment
genesis marker: the state of the provider right before the block-insertion
loop. -/
def initialStore (c : BlockchainTest) (g : RecoveredBlock) : Store :=
  initReceipts (write_to_db (insert_historical_block emptyStore g) c.pre)

/-- Setup phase of `run_case`: recover the genesis block (unwrap — a
failure panics), insert it, write the pre-state, initialize receipts, and
run the decode-and-insert loop over the fixture blocks. -/
def setupStore (env : Env) (c : BlockchainTest) :
    Outcome (Store × Option DecodedBlock) :=
  match env.try_recover (genesisBlock c) with
  | none => .panic genesisPanicMsg
  | some g => insertBlocks env (initialStore c g) none c.blocks

/-- Target height handed to the execution stage: the number of the last
decoded block, if any. -/
def execTarget (last : Option DecodedBlock) : Option Nat :=
  last.map (fun d => d.header.number)

/-- Modelled from the spec: `ExecutionStage::execute` (reth-stages, not
under the embedded sources) — any error it raises is surfaced and aborts
the current batch without partial commit, so no state is written on
execution failure. The call site discards the result, so on failure the
store is left exactly as it was before the call. -/
def storeAfterExec (env : Env) (net : ForkSpec) (s : Store)
    (last : Option DecodedBlock) : Store :=
  match env.exec net s (execTarget last) with
  | .ok t => t
  | .error _ => s

/-- Storage-slot lookup with the absent-equals-zero convention. -/
def getSlot (storage : List (Nat × Nat)) (k : Nat) : Nat :=
  match storage.find? (fun kv => kv.1 == k) with
  | some kv => kv.2
  | none => 0

/-- Account lookup in the store's plain state. -/
def lookupAccount (accounts : List (Nat × Account)) (a : Nat) : Option Account :=
  (accounts.find? (fun kv => kv.1 == a)).map (fun kv => kv.2)

/-- Compare every expected storage slot against the actual storage; the
first divergence is reported as a mismatch naming the account. -/
def checkSlots (address : Nat) (actual : List (Nat × Nat)) :
    List (Nat × Nat) → Except Error Unit
  | [] => .ok ()
  | kv :: rest =>
    let av := getSlot actual kv.1
    if av = kv.2 then checkSlots address actual rest
    else .error (.StateMismatch address "storage" kv.2 av)

/-- Modelled from the spec: `Account::assert_db` (ef-tests models, not
under the embedded sources) — reads the account at `address` from the
State Store and compares every attribute field-by-field (balance, nonce,
code hash, then every expected storage slot); any mismatch yields a
mismatch error carrying the diverging address. -/
def Account.assert_db (expected : Account) (address : Nat) (s : Store) :
    Except Error Unit :=
  match lookupAccount s.accounts address with
  | none => .error (.MissingAccount address)
  | some actual =>
    if actual.balance ≠ expected.balance then
      .error (.StateMismatch address "balance" expected.balance actual.balance)
    else if actual.nonce ≠ expected.nonce then
      .error (.StateMismatch address "nonce" expected.nonce actual.nonce)
    else if actual.code ≠ expected.code then
      .error (.StateMismatch address "code" expected.code actual.code)
    else checkSlots address actual.storage expected.storage

/-- Per-account validation loop of `run_case`: assert each expected
account in order, stopping at the first error. -/
def assertPost (s : Store) : List (Nat × Account) → Except Error Unit
  | [] => .ok ()
  | p :: rest =>
    match Account.assert_db p.2 p.1 s with
    | .ok () => assertPost s rest
    | .error e => .error e

/-- Post-state validation step of `run_case` (the match on
`(post_state, post_state_hash)`). Per-account mode only reads; hash mode
calls `insert_hashes`, which writes a hashed-state entry into the provider
and checks the state root; any other shape of the fixture is
`MissingPostState`. The returned store is the store content after the
step (also on the error path, because the provider is mutated in place). -/
def postValidate (env : Env) (c : BlockchainTest) (s : Store)
    (last : Option DecodedBlock) : Except Error Unit × Store :=
  match c.post_state, c.post_state_hash with
  | some state, none => (assertPost s state, s)
  | none, some root =>
    let lb := last.getD defaultBlock
    let s2 := { s with hashes := s.hashes ++ [(lb.header.number, lb.header.hash, root)] }
    (if env.stateRoot s2 = root then .ok () else
      .error (.StateRootMismatch root (env.stateRoot s2)), s2)
  | _, _ => (.error .MissingPostState, s)

/-- The store handed to the post-state validation step: setup store after
the execution stage ran over it. -/
def validationInput (env : Env) (c : BlockchainTest) : Outcome Store :=
  match setupStore env c with
  | .ok (s, last) => .ok (storeAfterExec env c.network s last)
  | .err e => .err e
  | .panic m => .panic m

/-- The whole of `run_case`: setup, execution stage (result discarded),
post-state validation, then the provider is dropped without committing. -/
def run_case (env : Env) (c : BlockchainTest) : Outcome Unit :=
  match setupStore env c with
  | .ok (s, last) =>
    match (postValidate env c (storeAfterExec env c.network s last) last).1 with
    | .ok () => .ok ()
    | .error e => .err e
  | .err e => .err e
  | .panic m => .panic m

/-- A loaded test case: the fixture map (embedded as an ordered
association list) and the skip flag computed at load time. -/
structure BlockchainTestCase where
  tests : List (String × BlockchainTest)
  skip : Bool
  deriving Repr

/-- The network filter of `BlockchainTestCase::run`: the forks whose cases
are excluded from execution. -/
def networkExcluded : ForkSpec → Bool
  | .ByzantiumToConstantinopleAt5 => true
  | .Constantinople => true
  | .ConstantinopleFix => true
  | .MergeEOF => true
  | .MergeMeterInitCode => true
  | .MergePush0 => true
  | .Unknown => true
  | _ => false

/-- Body of the `try_for_each` closure in `run`: a case that fails while
some block of it declares an expected exception counts as a success;
otherwise the case result is propagated. A panic is not a typed failure
and unwinds. -/
def runCaseOutcome (env : Env) (c : BlockchainTest) : Outcome Unit :=
  match run_case env c with
  | .ok () => .ok ()
  | .err e =>
    if c.blocks.any (fun b => b.expect_exception.isSome) then .ok () else .err e
  | .panic m => .panic m

/-- The `try_for_each` over the filtered cases, instrumented with the list
of cases actually handed to the closure. -/
def runCasesExecuted (env : Env) : List BlockchainTest → Outcome Unit × List BlockchainTest
  | [] => (.ok (), [])
  | c :: cs =>
    match runCaseOutcome env c with
    | .ok () =>
      let r := runCasesExecuted env cs
      (r.1, c :: r.2)
    | .err e => (.err e, [c])
    | .panic m => (.panic m, [c])

/-- The fixture values of a test case after the network filter. -/
def filteredCases (tc : BlockchainTestCase) : List BlockchainTest :=
  (tc.tests.map Prod.snd).filter (fun c => !networkExcluded c.network)

/-- `BlockchainTestCase::run` instrumented with the list of executed
cases: a skipped case returns the Skipped error immediately and executes
nothing, otherwise the filtered cases are evaluated. -/
def runExecuted (env : Env) (tc : BlockchainTestCase) :
    Outcome Unit × List BlockchainTest :=
  if tc.skip then (.err .Skipped, []) else runCasesExecuted env (filteredCases tc)

/-- `BlockchainTestCase::run`. -/
def BlockchainTestCase.run (env : Env) (tc : BlockchainTestCase) : Outcome Unit :=
  (runExecuted env tc).1

/-- File names skipped by the harness. -/
def skippedNames : List String :=
  ["ValueOverflow.json", "ValueOverflowParis.json", "typeTwoBerlin.json",
   "CreateTransactionHighNonce.json", "HighGasPrice.json", "HighGasPriceParis.json",
   "accessListExample.json", "basefeeExample.json", "eip1559.json", "mergeTest.json",
   "loopExp.json", "Call50000_sha256.json", "static_Call50000_sha256.json",
   "loopMul.json", "CALLBlake2f_MaxRounds.json", "shiftCombinations.json",
   "RevertInCreateInInit_Paris.json", "RevertInCreateInInit.json",
   "dynamicAccountOverwriteEmpty.json", "dynamicAccountOverwriteEmpty_Paris.json",
   "RevertInCreateInInitCreate2Paris.json", "create2collisionStorage.json",
   "RevertInCreateInInitCreate2.json", "create2collisionStorageParis.json",
   "InitCollision.json", "InitCollisionParis.json"]

/-- A fixture path, as its list of components. -/
structure TestPath where
  components : List String
  deriving DecidableEq, Repr

/-- Separator-aware containment check of `path_contains`, on the component
representation of paths. -/
def path_contains (p : TestPath) (rhs : List String) : Bool :=
  decide (rhs <:+: p.components)

/-- `should_skip`: the file name is on the skip list, or the path goes
through the outdated EOF test directory. -/
def should_skip (p : TestPath) : Bool :=
  (match p.components.getLast? with
   | some n => skippedNames.contains n
   | none => false)
  || path_contains p ["EIPTests", "stEOF"]

/-- Specification-side statement of a per-account match: the account is
present in the store and every attribute (balance, nonce, code hash, each
expected storage slot) agrees with the expected value. -/
def accountOk (address : Nat) (expected : Account) (s : Store) : Prop :=
  ∃ actual, lookupAccount s.accounts address = some actual ∧
    actual.balance = expected.balance ∧ actual.nonce = expected.nonce ∧
    actual.code = expected.code ∧
    ∀ kv ∈ expected.storage, getSlot actual.storage kv.1 = kv.2

/-- The account address carried by a verification error, if any. -/
def errAddress : Error → Option Nat
  | .MissingAccount a => some a
  | .StateMismatch a _ _ _ => some a
  | _ => none

/-! Concrete environments and fixtures used to instantiate the theorems. -/

/-- Environment whose decoder always fails and whose sender recovery
always succeeds; the execution stage is the identity. -/
def dEnv : Env :=
  { decode := fun _ => .error "bad",
    try_recover := fun d => some { block := d, senders := [] },
    exec := fun _ s _ => .ok s,
    stateRoot := fun _ => 0 }

/-- A trivial genesis header. -/
def hdr0 : Header := { number := 0, stateRoot := 0, hash := 0 }

/-- Fixture with no blocks and neither a post-state nor a post-state
hash. -/
def caseNoPost : BlockchainTest :=
  { network := .Cancun, genesis_block_header := hdr0, pre := [],
    blocks := [], post_state := none, post_state_hash := none }

/-- Fixture with one undecodable block that carries an expected-exception
marker. -/
def caseDecodeFail : BlockchainTest :=
  { network := .Cancun, genesis_block_header := hdr0, pre := [],
    blocks := [{ rlp := [1], expect_exception := some "x" }],
    post_state := none, post_state_hash := none }

/-- A block at height one. -/
def blk1 : DecodedBlock :=
  { header := { number := 1, stateRoot := 0, hash := 7 }, transactions := [] }

/-- Environment whose decoder always yields `blk1` and whose sender
recovery succeeds only at height zero: recovery of any decoded fixture
block fails. -/
def envRecoverFail : Env :=
  { decode := fun _ => .ok blk1,
    try_recover := fun d =>
      if d.header.number == 0 then some { block := d, senders := [] } else none,
    exec := fun _ s _ => .ok s,
    stateRoot := fun _ => 0 }

/-- Fixture with a single block and no expected exception. -/
def caseOneBlock : BlockchainTest :=
  { network := .Cancun, genesis_block_header := hdr0, pre := [],
    blocks := [{ rlp := [1], expect_exception := none }],
    post_state := none, post_state_hash := none }

/-- Fixture with no blocks and only an expected state-commitment hash. -/
def caseHash : BlockchainTest :=
  { network := .Cancun, genesis_block_header := hdr0, pre := [],
    blocks := [], post_state := none, post_state_hash := some 5 }

/-- Environment whose state-root computation always answers five. -/
def envRoot5 : Env :=
  { decode := fun _ => .error "bad",
    try_recover := fun d => some { block := d, senders := [] },
    exec := fun _ s _ => .ok s,
    stateRoot := fun _ => 5 }

/-- Environment whose execution stage always fails. -/
def envExecFail : Env :=
  { decode := fun _ => .error "bad",
    try_recover := fun d => some { block := d, senders := [] },
    exec := fun _ _ _ => .error "boom",
    stateRoot := fun _ => 0 }

/-- Fixture carrying both a full post-state and a post-state hash. -/
def caseBothPost : BlockchainTest :=
  { network := .Cancun, genesis_block_header := hdr0, pre := [],
    blocks := [], post_state := some [], post_state_hash := some 5 }

/-- An expected account used by the per-account validation witness. -/
def acctA : Account := { balance := 100, nonce := 1, code := 0, storage := [] }

/-- Fixture expecting account one to hold `acctA`. -/
def caseAcct : BlockchainTest :=
  { network := .Cancun, genesis_block_header := hdr0, pre := [],
    blocks := [], post_state := some [(1, acctA)], post_state_hash := none }

/-- A store holding `acctA` at address one. -/
def storeAcct : Store :=
  { accounts := [(1, acctA)], blocks := [], receiptsGenesis := false, hashes := [] }

/-- Fixture whose network is the excluded `Unknown` fork. -/
def caseUnknownNet : BlockchainTest :=
  { network := .Unknown, genesis_block_header := hdr0, pre := [],
    blocks := [], post_state := none, post_state_hash := none }

/-! Helper lemmas. -/

/-- Every case handed to the `try_for_each` closure comes from the input
list. -/
theorem mem_runCasesExecuted (env : Env) :
    ∀ (l : List BlockchainTest) (x : BlockchainTest),
      x ∈ (runCasesExecuted env l).2 → x ∈ l := by
  intro l
  induction l with
  | nil => intro x hx; simp [runCasesExecuted] at hx
  | cons c cs ih =>
    intro x hx
    unfold runCasesExecuted at hx
    cases h : runCaseOutcome env c with
    | ok a =>
      cases a
      rw [h] at hx
      simp only at hx
      rcases List.mem_cons.mp hx with h1 | h2
      · exact List.mem_cons.mpr (Or.inl h1)
      · exact List.mem_cons.mpr (Or.inr (ih x h2))
    | err e =>
      rw [h] at hx
      simp only [List.mem_singleton] at hx
      exact List.mem_cons.mpr (Or.inl hx)
    | panic m =>
      rw [h] at hx
      simp only [List.mem_singleton] at hx
      exact List.mem_cons.mpr (Or.inl hx)

/-! Claim theorems. -/

/-- C8: a `BlockchainTestCase` whose skip flag is set (its loaded path is
matched by `should_skip`) makes `run` return the `Skipped` error
immediately, executing no test case. -/
theorem run_skip_returns_skipped (env : Env) (tests : List (String × BlockchainTest))
    (p : TestPath) (hskip : should_skip p = true) :
    runExecuted env { tests := tests, skip := should_skip p } = (.err .Skipped, []) ∧
    BlockchainTestCase.run env { tests := tests, skip := should_skip p } =
      .err .Skipped := by
  constructor
  · simp [runExecuted, hskip]
  · simp [BlockchainTestCase.run, runExecuted, hskip]

/-- Witness for C8 at the concrete path tests/ValueOverflow.json. -/
theorem run_skip_returns_skipped_witness :
    runExecuted dEnv { tests := [], skip := should_skip { components := ["tests", "ValueOverflow.json"] } } =
      (.err .Skipped, []) := by
  exact (run_skip_returns_skipped dEnv [] { components := ["tests", "ValueOverflow.json"] }
    (by decide)).1

/-- C9: a case whose network is one of the excluded forks is never handed
to `run_case` by `run`, and adding such a case to a suite leaves the suite
result unchanged, so it contributes a successful outcome. -/
theorem excluded_network_never_executed (env : Env) (tc : BlockchainTestCase)
    (c : BlockchainTest) (name : String)
    (hskip : tc.skip = false) (hex : networkExcluded c.network = true) :
    c ∉ (runExecuted env tc).2 ∧
    BlockchainTestCase.run env { tests := tc.tests ++ [(name, c)], skip := false } =
      BlockchainTestCase.run env { tests := tc.tests, skip := false } := by
  constructor
  · intro hmem
    rw [runExecuted, hskip] at hmem
    simp only [if_false, Bool.false_eq_true] at hmem
    have hin := mem_runCasesExecuted env (filteredCases tc) c hmem
    rw [filteredCases] at hin
    have := List.of_mem_filter hin
    simp [hex] at this
  · unfold BlockchainTestCase.run runExecuted filteredCases
    simp [List.filter_append, hex]

/-- Witness for C9: an Unknown-network case is not executed and does not
change the suite result. -/
theorem excluded_network_never_executed_witness :
    caseUnknownNet ∉ (runExecuted dEnv { tests := [("a", caseNoPost)], skip := false }).2 ∧
    BlockchainTestCase.run dEnv
        { tests := [("a", caseNoPost), ("b", caseUnknownNet)], skip := false } =
      BlockchainTestCase.run dEnv { tests := [("a", caseNoPost)], skip := false } := by
  exact excluded_network_never_executed dEnv
    { tests := [("a", caseNoPost)], skip := false } caseUnknownNet "b" rfl (by decide)

/-- C1: for a non-skipped, non-filtered case, a failing `run_case` is
turned into a success by `run` exactly when some block of the case
declares an expected exception; otherwise the error is propagated. -/
theorem expected_exception_is_success (env : Env) (name : String)
    (c : BlockchainTest) (e : Error)
    (hnet : networkExcluded c.network = false)
    (hfail : run_case env c = .err e) :
    ((c.blocks.any fun b => b.expect_exception.isSome) = true →
      runCaseOutcome env c = .ok () ∧
      BlockchainTestCase.run env { tests := [(name, c)], skip := false } = .ok ()) ∧
    ((c.blocks.any fun b => b.expect_exception.isSome) = false →
      runCaseOutcome env c = .err e ∧
      BlockchainTestCase.run env { tests := [(name, c)], skip := false } = .err e) := by
  constructor
  · intro hexp
    have h1 : runCaseOutcome env c = .ok () := by
      rw [runCaseOutcome, hfail, hexp]
      simp
    refine ⟨h1, ?_⟩
    simp [BlockchainTestCase.run, runExecuted, filteredCases, hnet,
      runCasesExecuted, h1]
  · intro hexp
    have h1 : runCaseOutcome env c = .err e := by
      rw [runCaseOutcome, hfail, hexp]
      simp
    refine ⟨h1, ?_⟩
    simp [BlockchainTestCase.run, runExecuted, filteredCases, hnet,
      runCasesExecuted, h1]

/-- Witness for C1: the undecodable block carries an expected exception,
so the failing case counts as a success. -/
theorem expected_exception_is_success_witness :
    runCaseOutcome dEnv caseDecodeFail = .ok () ∧
    BlockchainTestCase.run dEnv { tests := [("t", caseDecodeFail)], skip := false } =
      .ok () := by
  exact (expected_exception_is_success dEnv "t" caseDecodeFail
    (.RlpDecodeError "bad") (by decide) (by decide)).1 (by decide)

/-- The decode-and-insert loop processes an appended list by first
processing the prefix. -/
theorem insertBlocks_append (env : Env) (xs ys : List FixtureBlock) :
    ∀ (s : Store) (last : Option DecodedBlock),
      insertBlocks env s last (xs ++ ys) =
        match insertBlocks env s last xs with
        | .ok (s1, l1) => insertBlocks env s1 l1 ys
        | .err e => .err e
        | .panic m => .panic m := by
  induction xs with
  | nil => intro s last; simp [insertBlocks]
  | cons b bs ih =>
    intro s last
    simp only [List.cons_append, insertBlocks]
    cases hd : env.decode b.rlp with
    | error e => simp
    | ok d =>
      simp only
      cases hr : env.try_recover d with
      | none => simp
      | some r => simp [ih]

/-- C2, counterexample: a block that decodes but whose sender recovery
fails makes `run_case` panic (a process abort), not return a typed
error. -/
theorem recover_failure_panics_counterexample :
    run_case envRecoverFail caseOneBlock = .panic recoverPanicMsg ∧
    ∀ e, run_case envRecoverFail caseOneBlock ≠ .err e := by
  constructor
  · rfl
  · intro e h
    rw [show run_case envRecoverFail caseOneBlock = .panic recoverPanicMsg from rfl] at h
    exact Outcome.noConfusion h

/-- C2, amended: a block whose raw bytes fail to decode produces the typed
RLP-decode error from `run_case`, while a block whose sender recovery
fails causes an unwrap panic (process abort) rather than a typed error. -/
theorem decode_error_typed_recover_failure_panics (env : Env) (c : BlockchainTest)
    (g : RecoveredBlock) (s1 : Store) (l1 : Option DecodedBlock)
    (bs1 : List FixtureBlock) (b : FixtureBlock) (bs2 : List FixtureBlock)
    (hg : env.try_recover (genesisBlock c) = some g)
    (hblocks : c.blocks = bs1 ++ b :: bs2)
    (hpre : insertBlocks env (initialStore c g) none bs1 = .ok (s1, l1)) :
    (∀ e, env.decode b.rlp = .error e → run_case env c = .err (.RlpDecodeError e)) ∧
    (∀ d, env.decode b.rlp = .ok d → env.try_recover d = none →
      run_case env c = .panic recoverPanicMsg) := by
  have hsetup : setupStore env c = insertBlocks env s1 l1 (b :: bs2) := by
    have h0 : setupStore env c = insertBlocks env (initialStore c g) none c.blocks := by
      rw [setupStore, hg]
    rw [h0, hblocks, insertBlocks_append, hpre]
  constructor
  · intro e hdec
    rw [run_case, hsetup]
    simp [insertBlocks, hdec]
  · intro d hdec hrec
    rw [run_case, hsetup]
    simp [insertBlocks, hdec, hrec]

/-- Witness for the amended C2: the undecodable first block yields the
typed RLP-decode error. -/
theorem decode_error_typed_recover_failure_panics_witness :
    run_case dEnv caseDecodeFail = .err (.RlpDecodeError "bad") := by
  exact (decode_error_typed_recover_failure_panics dEnv caseDecodeFail
    { block := genesisBlock caseDecodeFail, senders := [] }
    (initialStore caseDecodeFail { block := genesisBlock caseDecodeFail, senders := [] })
    none [] { rlp := [1], expect_exception := some "x" } []
    rfl rfl rfl).1 "bad" rfl

/-- C3, counterexample: in hash mode the post-state validation step writes
a hashed-state entry into the store — the store after validation differs
from the store before it, on a fixture whose validation succeeds. -/
theorem hash_mode_validation_writes_counterexample :
    (postValidate envRoot5 caseHash emptyStore none).2 ≠ emptyStore ∧
    run_case envRoot5 caseHash = .ok () := by
  constructor
  · decide
  · rfl

/-- C3, amended: per-account validation is read-only (it returns the store
unchanged), while hash mode appends a hashed-state entry to the store. -/
theorem post_validation_effects :
    (∀ (env : Env) (c : BlockchainTest) (s : Store) (last : Option DecodedBlock)
        (state : List (Nat × Account)),
      c.post_state = some state → c.post_state_hash = none →
      (postValidate env c s last).2 = s) ∧
    (∀ (env : Env) (c : BlockchainTest) (s : Store) (last : Option DecodedBlock)
        (root : Nat),
      c.post_state = none → c.post_state_hash = some root →
      (postValidate env c s last).2.hashes =
        s.hashes ++ [((last.getD defaultBlock).header.number,
                      (last.getD defaultBlock).header.hash, root)]) := by
  constructor
  · intro env c s last state hps hph
    simp [postValidate, hps, hph]
  · intro env c s last root hps hph
    simp [postValidate, hps, hph]

/-- Witness for the amended C3: per-account validation leaves a concrete
store unchanged. -/
theorem post_validation_effects_witness :
    (postValidate dEnv caseAcct storeAcct none).2 = storeAcct := by
  exact post_validation_effects.1 dEnv caseAcct storeAcct none [(1, acctA)] rfl rfl

/-- C4: if the execution stage fails, no state is written (the batch is
aborted without partial commit), so the post-state check observes exactly
the pre-execution store. -/
theorem exec_failure_no_state_written (env : Env) (c : BlockchainTest) (s : Store)
    (last : Option DecodedBlock) (e : String)
    (hsetup : setupStore env c = .ok (s, last))
    (hexec : env.exec c.network s (execTarget last) = .error e) :
    validationInput env c = .ok s := by
  rw [validationInput, hsetup]
  simp [storeAfterExec, hexec]

/-- Witness for C4: a concrete fixture under an always-failing execution
stage hands the untouched setup store to validation. -/
theorem exec_failure_no_state_written_witness :
    validationInput envExecFail caseNoPost =
      .ok (initialStore caseNoPost { block := genesisBlock caseNoPost, senders := [] }) := by
  exact exec_failure_no_state_written envExecFail caseNoPost
    (initialStore caseNoPost { block := genesisBlock caseNoPost, senders := [] })
    none "boom" rfl rfl

/-- The storage-slot check succeeds exactly when every expected slot holds
its expected value. -/
theorem checkSlots_ok_iff (a : Nat) (act : List (Nat × Nat)) :
    ∀ slots, checkSlots a act slots = .ok () ↔
      ∀ kv ∈ slots, getSlot act kv.1 = kv.2 := by
  intro slots
  induction slots with
  | nil => simp [checkSlots]
  | cons kv rest ih =>
    simp only [checkSlots]
    by_cases h : getSlot act kv.1 = kv.2
    · simp [h, ih]
    · simp [h]

/-- A failing storage-slot check names a genuinely diverging slot and
carries the account address. -/
theorem checkSlots_error (a : Nat) (act : List (Nat × Nat)) :
    ∀ slots e, checkSlots a act slots = .error e →
      (∃ kv ∈ slots, getSlot act kv.1 ≠ kv.2) ∧ errAddress e = some a := by
  intro slots
  induction slots with
  | nil => intro e h; simp [checkSlots] at h
  | cons kv rest ih =>
    intro e h
    simp only [checkSlots] at h
    by_cases hk : getSlot act kv.1 = kv.2
    · rw [if_pos hk] at h
      obtain ⟨⟨kv2, hmem, hne⟩, haddr⟩ := ih e h
      exact ⟨⟨kv2, List.mem_cons.mpr (Or.inr hmem), hne⟩, haddr⟩
    · rw [if_neg hk] at h
      cases h
      exact ⟨⟨kv, List.mem_cons_self kv rest, hk⟩, rfl⟩

/-- Reduction of the per-account assertion when the account is absent. -/
theorem assert_db_none (expected : Account) (a : Nat) (s : Store)
    (hl : lookupAccount s.accounts a = none) :
    Account.assert_db expected a s = .error (.MissingAccount a) := by
  rw [Account.assert_db, hl]

/-- Reduction of the per-account assertion when the account is present. -/
theorem assert_db_some (expected : Account) (a : Nat) (s : Store) (actual : Account)
    (hl : lookupAccount s.accounts a = some actual) :
    Account.assert_db expected a s =
      (if actual.balance ≠ expected.balance then
        .error (.StateMismatch a "balance" expected.balance actual.balance)
      else if actual.nonce ≠ expected.nonce then
        .error (.StateMismatch a "nonce" expected.nonce actual.nonce)
      else if actual.code ≠ expected.code then
        .error (.StateMismatch a "code" expected.code actual.code)
      else checkSlots a actual.storage expected.storage) := by
  rw [Account.assert_db, hl]

/-- The per-account assertion succeeds exactly when the account matches
field-by-field. -/
theorem assert_db_ok_iff (expected : Account) (a : Nat) (s : Store) :
    Account.assert_db expected a s = .ok () ↔ accountOk a expected s := by
  cases hl : lookupAccount s.accounts a with
  | none =>
    simp [assert_db_none expected a s hl, accountOk, hl]
  | some actual =>
    rw [accountOk, assert_db_some expected a s actual hl]
    simp only [hl, Option.some.injEq, exists_eq_left']
    constructor
    · intro h
      split_ifs at h with h1 h2 h3
      push_neg at h1 h2 h3
      exact ⟨h1, h2, h3, (checkSlots_ok_iff a actual.storage expected.storage).mp h⟩
    · rintro ⟨hb, hn, hc, hs⟩
      rw [if_neg (by simp [hb]), if_neg (by simp [hn]), if_neg (by simp [hc])]
      exact (checkSlots_ok_iff a actual.storage expected.storage).mpr hs

/-- A failing per-account assertion means the account does not match, and
the error carries the diverging address. -/
theorem assert_db_error (expected : Account) (a : Nat) (s : Store) (e : Error)
    (h : Account.assert_db expected a s = .error e) :
    ¬ accountOk a expected s ∧ errAddress e = some a := by
  cases hl : lookupAccount s.accounts a with
  | none =>
    rw [assert_db_none expected a s hl] at h
    cases h
    refine ⟨?_, rfl⟩
    rintro ⟨act, hsome, -⟩
    rw [hl] at hsome
    cases hsome
  | some actual =>
    rw [assert_db_some expected a s actual hl] at h
    split_ifs at h with h1 h2 h3
    · cases h
      refine ⟨?_, rfl⟩
      rintro ⟨act, hsome, hb, -⟩
      rw [hl] at hsome
      injection hsome with he
      subst he
      exact h1 hb
    · cases h
      refine ⟨?_, rfl⟩
      rintro ⟨act, hsome, -, hn, -⟩
      rw [hl] at hsome
      injection hsome with he
      subst he
      exact h2 hn
    · cases h
      refine ⟨?_, rfl⟩
      rintro ⟨act, hsome, -, -, hc, -⟩
      rw [hl] at hsome
      injection hsome with he
      subst he
      exact h3 hc
    · obtain ⟨⟨kv, hmem, hne⟩, haddr⟩ :=
        checkSlots_error a actual.storage expected.storage e h
      refine ⟨?_, haddr⟩
      rintro ⟨act, hsome, -, -, -, hs⟩
      rw [hl] at hsome
      injection hsome with he
      subst he
      exact hne (hs kv hmem)

/-- The per-account loop succeeds exactly when every listed assertion
succeeds. -/
theorem assertPost_ok_iff (s : Store) :
    ∀ state, assertPost s state = .ok () ↔
      ∀ p ∈ state, Account.assert_db p.2 p.1 s = .ok () := by
  intro state
  induction state with
  | nil => simp [assertPost]
  | cons p rest ih =>
    simp only [assertPost]
    cases hp : Account.assert_db p.2 p.1 s with
    | ok a =>
      cases a
      simp [hp, ih]
    | error e =>
      simp [hp]

/-- A failing per-account loop exposes a listed account whose assertion
fails with the same error. -/
theorem assertPost_error (s : Store) :
    ∀ state e, assertPost s state = .error e →
      ∃ p ∈ state, Account.assert_db p.2 p.1 s = .error e := by
  intro state
  induction state with
  | nil => intro e h; simp [assertPost] at h
  | cons p rest ih =>
    intro e h
    simp only [assertPost] at h
    cases hp : Account.assert_db p.2 p.1 s with
    | ok a =>
      cases a
      rw [hp] at h
      simp only at h
      obtain ⟨q, hq, hqe⟩ := ih e h
      exact ⟨q, List.mem_cons.mpr (Or.inr hq), hqe⟩
    | error e2 =>
      rw [hp] at h
      simp only at h
      cases h
      exact ⟨p, List.mem_cons_self p rest, hp⟩

/-- C5: in per-account mode, validation succeeds exactly when every
expected account read from the State Store matches field-by-field, and a
failure produces an error identifying a genuinely diverging listed
account. -/
theorem per_account_mode_checks_all_accounts (env : Env) (c : BlockchainTest)
    (s : Store) (last : Option DecodedBlock) (state : List (Nat × Account))
    (hps : c.post_state = some state) (hph : c.post_state_hash = none) :
    ((postValidate env c s last).1 = .ok () ↔ ∀ p ∈ state, accountOk p.1 p.2 s) ∧
    (∀ e, (postValidate env c s last).1 = .error e →
      ∃ p ∈ state, ¬ accountOk p.1 p.2 s ∧ errAddress e = some p.1) := by
  have hpv : (postValidate env c s last).1 = assertPost s state := by
    simp [postValidate, hps, hph]
  constructor
  · rw [hpv, assertPost_ok_iff]
    constructor
    · intro h p hp
      exact (assert_db_ok_iff p.2 p.1 s).mp (h p hp)
    · intro h p hp
      exact (assert_db_ok_iff p.2 p.1 s).mpr (h p hp)
  · intro e he
    rw [hpv] at he
    obtain ⟨p, hp, hpe⟩ := assertPost_error s state e he
    obtain ⟨hnok, haddr⟩ := assert_db_error p.2 p.1 s e hpe
    exact ⟨p, hp, hnok, haddr⟩

/-- Witness for C5 at a concrete matching store and fixture. -/
theorem per_account_mode_checks_all_accounts_witness :
    (postValidate dEnv caseAcct storeAcct none).1 = .ok () ↔
      ∀ p ∈ [(1, acctA)], accountOk p.1 p.2 storeAcct := by
  exact (per_account_mode_checks_all_accounts dEnv caseAcct storeAcct none
    [(1, acctA)] rfl rfl).1

/-- C6: a fixture reaching validation with neither a post-state nor a
post-state hash makes `run_case` fail with the missing-post-state
error. -/
theorem no_post_state_no_hash_error (env : Env) (c : BlockchainTest) (s : Store)
    (last : Option DecodedBlock)
    (hsetup : setupStore env c = .ok (s, last))
    (hps : c.post_state = none) (hph : c.post_state_hash = none) :
    run_case env c = .err .MissingPostState := by
  rw [run_case, hsetup]
  simp [postValidate, hps, hph]

/-- Witness for C6 on a concrete fixture with no blocks. -/
theorem no_post_state_no_hash_error_witness :
    run_case dEnv caseNoPost = .err .MissingPostState := by
  exact no_post_state_no_hash_error dEnv caseNoPost
    (initialStore caseNoPost { block := genesisBlock caseNoPost, senders := [] })
    none rfl rfl rfl

/-- C10: a fixture reaching validation with both a post-state and a
post-state hash also fails with the missing-post-state error, and neither
validation mode runs (the store is left untouched by the validation
step). -/
theorem both_post_state_and_hash_error (env : Env) (c : BlockchainTest) (s : Store)
    (last : Option DecodedBlock) (state : List (Nat × Account)) (root : Nat)
    (hsetup : setupStore env c = .ok (s, last))
    (hps : c.post_state = some state) (hph : c.post_state_hash = some root) :
    run_case env c = .err .MissingPostState ∧
    (postValidate env c (storeAfterExec env c.network s last) last).2 =
      storeAfterExec env c.network s last := by
  constructor
  · rw [run_case, hsetup]
    simp [postValidate, hps, hph]
  · simp [postValidate, hps, hph]

/-- Witness for C10 on a concrete fixture carrying both. -/
theorem both_post_state_and_hash_error_witness :
    run_case dEnv caseBothPost = .err .MissingPostState := by
  exact (both_post_state_and_hash_error dEnv caseBothPost
    (initialStore caseBothPost { block := genesisBlock caseBothPost, senders := [] })
    none [] 5 rfl rfl rfl).1
